import Mathlib

/-!
Verification of the syslog-loose parser against its specification.

The Rust sources are embedded shallowly: a string slice becomes a
`List Char`, a nom parser becomes a function from input to
`Option (remaining, value)` (nom error details are never inspected by this
crate beyond success or failure, so `Option` is a faithful model of
`IResult` for the complete-input combinators used here), and chrono
datetimes become an explicit civil-time record with a fixed offset in
seconds.  Subsecond precision is not modelled: no claim depends on it.
-/

namespace SyslogLoose

/-- A Rust string slice, modelled as its list of characters. -/
abbrev Str := List Char

/-- Convenience conversion from a Lean string literal. -/
def strL (s : String) : Str := s.data

/-- Rust char is_whitespace: the Unicode White_Space property. -/
def isRustWhitespace (c : Char) : Bool :=
  c == ' ' || c == '\t' || c == '\n' || c.toNat == 0x0B || c.toNat == 0x0C || c == '\r' ||
  c.toNat == 0x85 || c.toNat == 0xA0 || c.toNat == 0x1680 ||
  (0x2000 ≤ c.toNat && c.toNat ≤ 0x200A) ||
  c.toNat == 0x2028 || c.toNat == 0x2029 || c.toNat == 0x202F ||
  c.toNat == 0x205F || c.toNat == 0x3000

/-- The characters accepted by nom space0 and space1: space and tab. -/
def isNomSpace (c : Char) : Bool := c == ' ' || c == '\t'

/-- nom bytes complete tag: consume the literal if it is at the front. -/
def tagC (t : Str) (input : Str) : Option (Str × Str) :=
  if input.take t.length = t then some (input.drop t.length, t) else none

/-- nom take_while: zero or more characters satisfying the predicate; never fails. -/
def takeWhileP (p : Char → Bool) (input : Str) : Option (Str × Str) :=
  some (input.dropWhile p, input.takeWhile p)

/-- nom take_while1 and take_till1: at least one character or failure. -/
def takeWhile1P (p : Char → Bool) (input : Str) : Option (Str × Str) :=
  match input.takeWhile p with
  | [] => none
  | tk => some (input.dropWhile p, tk)

/-- nom take_till1 consumes up to the first character satisfying the predicate. -/
def takeTill1P (p : Char → Bool) (input : Str) : Option (Str × Str) :=
  takeWhile1P (fun c => !(p c)) input

/-- nom is_not: one or more characters, none of which appear in the set. -/
def isNotC (set : Str) (input : Str) : Option (Str × Str) :=
  takeWhile1P (fun c => !(set.contains c)) input

/-- nom character complete space0. -/
def space0 (input : Str) : Option (Str × Str) := takeWhileP isNomSpace input

/-- nom character complete space1. -/
def space1 (input : Str) : Option (Str × Str) := takeWhile1P isNomSpace input

/-- nom take: exactly n characters. -/
def takeP (n : Nat) (input : Str) : Option (Str × Str) :=
  if n ≤ input.length then some (input.drop n, input.take n) else none

/-- nom take_until: consume up to (not including) the first occurrence of the
literal; fails when the literal never occurs (complete-input semantics). -/
def takeUntilC (t : Str) : Str → Option (Str × Str)
  | [] => if t = [] then some ([], []) else none
  | c :: rest =>
    if (c :: rest).take t.length = t then some (c :: rest, [])
    else
      match takeUntilC t rest with
      | some (rem, tk) => some (rem, c :: tk)
      | none => none

/-- nom combinator opt: turn failure into a successful none. -/
def optP (p : Str → Option (Str × α)) (input : Str) : Option (Str × Option α) :=
  match p input with
  | some (rest, v) => some (rest, some v)
  | none => some (input, none)

/-- nom combinator rest: consume everything. -/
def restP (input : Str) : Option (Str × Str) := some ([], input)

/-- The character value of a decimal digit. -/
def digitVal (c : Char) : Nat := c.toNat - '0'.toNat

/-- Numeric value of a digit run, most significant first. -/
def digitsVal (ds : Str) : Nat := ds.foldl (fun a c => a * 10 + digitVal c) 0

/-- parsers.rs digits composed with an integer FromStr of the given exclusive
bound: nom digit1 followed by the numeric conversion, which fails on
overflow just as the Rust FromStr implementations do. -/
def digitsBounded (bound : Nat) (input : Str) : Option (Str × Nat) :=
  match takeWhile1P Char.isDigit input with
  | none => none
  | some (rest, ds) =>
    let v := digitsVal ds
    if v < bound then some (rest, v) else none

/-- digits at the u8 type, as used by the pri parser. -/
def digitsU8 (input : Str) : Option (Str × Nat) := digitsBounded 256 input

/-- digits at the u32 type, as used by the timestamp and version parsers. -/
def digitsU32 (input : Str) : Option (Str × Nat) := digitsBounded 4294967296 input

/-- nom multi many1 body with explicit fuel.  Every parser iterated by this
crate consumes at least one character on success, so fuel one larger than
the input length never runs out; a non-consuming success is modelled as
overall failure, mirroring the nom infinite-loop guard. -/
def manyLoop (p : Str → Option (Str × α)) : Nat → Str → Option (Str × List α)
  | 0, input => some (input, [])
  | fuel + 1, input =>
    match p input with
    | none => some (input, [])
    | some (rest, v) =>
      if rest.length < input.length then
        (manyLoop p fuel rest).map fun rv => (rv.1, v :: rv.2)
      else none

/-- nom multi many1: at least one element. -/
def many1P (p : Str → Option (Str × α)) (input : Str) : Option (Str × List α) :=
  match manyLoop p (input.length + 1) input with
  | some (_, []) => none
  | some (r, vs) => some (r, vs)
  | none => none

/-- nom separated_list0 loop: repeatedly a separator then an element; stops
before a separator that is not followed by an element. -/
def sepLoop (sep : Str → Option (Str × β)) (p : Str → Option (Str × α)) :
    Nat → Str → Option (Str × List α)
  | 0, input => some (input, [])
  | fuel + 1, input =>
    match sep input with
    | none => some (input, [])
    | some (r1, _) =>
      match p r1 with
      | none => some (input, [])
      | some (r2, v) =>
        if r2.length < input.length then
          (sepLoop sep p fuel r2).map fun rv => (rv.1, v :: rv.2)
        else none

/-- nom multi separated_list0. -/
def sepList0 (sep : Str → Option (Str × β)) (p : Str → Option (Str × α))
    (input : Str) : Option (Str × List α) :=
  match p input with
  | none => some (input, [])
  | some (r1, v) =>
    (sepLoop sep p (r1.length + 1) r1).map fun rv => (rv.1, v :: rv.2)

/-- Syslog facilities, pri.rs. -/
inductive SyslogFacility where
  | LOG_KERN | LOG_USER | LOG_MAIL | LOG_DAEMON | LOG_AUTH | LOG_SYSLOG
  | LOG_LPR | LOG_NEWS | LOG_UUCP | LOG_CRON | LOG_AUTHPRIV | LOG_FTP
  | LOG_NTP | LOG_AUDIT | LOG_ALERT | LOG_CLOCKD | LOG_LOCAL0 | LOG_LOCAL1
  | LOG_LOCAL2 | LOG_LOCAL3 | LOG_LOCAL4 | LOG_LOCAL5 | LOG_LOCAL6 | LOG_LOCAL7
deriving DecidableEq, Repr

/-- SyslogFacility from_int, pri.rs lines 41-69. -/
def SyslogFacility.from_int (i : Nat) : Option SyslogFacility :=
  match i with
  | 0 => some .LOG_KERN
  | 1 => some .LOG_USER
  | 2 => some .LOG_MAIL
  | 3 => some .LOG_DAEMON
  | 4 => some .LOG_AUTH
  | 5 => some .LOG_SYSLOG
  | 6 => some .LOG_LPR
  | 7 => some .LOG_NEWS
  | 8 => some .LOG_UUCP
  | 9 => some .LOG_CRON
  | 10 => some .LOG_AUTHPRIV
  | 11 => some .LOG_FTP
  | 12 => some .LOG_NTP
  | 13 => some .LOG_AUDIT
  | 14 => some .LOG_ALERT
  | 15 => some .LOG_CLOCKD
  | 16 => some .LOG_LOCAL0
  | 17 => some .LOG_LOCAL1
  | 18 => some .LOG_LOCAL2
  | 19 => some .LOG_LOCAL3
  | 20 => some .LOG_LOCAL4
  | 21 => some .LOG_LOCAL5
  | 22 => some .LOG_LOCAL6
  | 23 => some .LOG_LOCAL7
  | _ => none

/-- The wire discriminant of a facility, as declared by the Rust enum. -/
def SyslogFacility.code : SyslogFacility → Nat
  | .LOG_KERN => 0
  | .LOG_USER => 1
  | .LOG_MAIL => 2
  | .LOG_DAEMON => 3
  | .LOG_AUTH => 4
  | .LOG_SYSLOG => 5
  | .LOG_LPR => 6
  | .LOG_NEWS => 7
  | .LOG_UUCP => 8
  | .LOG_CRON => 9
  | .LOG_AUTHPRIV => 10
  | .LOG_FTP => 11
  | .LOG_NTP => 12
  | .LOG_AUDIT => 13
  | .LOG_ALERT => 14
  | .LOG_CLOCKD => 15
  | .LOG_LOCAL0 => 16
  | .LOG_LOCAL1 => 17
  | .LOG_LOCAL2 => 18
  | .LOG_LOCAL3 => 19
  | .LOG_LOCAL4 => 20
  | .LOG_LOCAL5 => 21
  | .LOG_LOCAL6 => 22
  | .LOG_LOCAL7 => 23

/-- Syslog severities, pri.rs. -/
inductive SyslogSeverity where
  | SEV_EMERG | SEV_ALERT | SEV_CRIT | SEV_ERR
  | SEV_WARNING | SEV_NOTICE | SEV_INFO | SEV_DEBUG
deriving DecidableEq, Repr

/-- SyslogSeverity from_int, pri.rs lines 125-137. -/
def SyslogSeverity.from_int (i : Nat) : Option SyslogSeverity :=
  match i with
  | 0 => some .SEV_EMERG
  | 1 => some .SEV_ALERT
  | 2 => some .SEV_CRIT
  | 3 => some .SEV_ERR
  | 4 => some .SEV_WARNING
  | 5 => some .SEV_NOTICE
  | 6 => some .SEV_INFO
  | 7 => some .SEV_DEBUG
  | _ => none

/-- The wire discriminant of a severity. -/
def SyslogSeverity.code : SyslogSeverity → Nat
  | .SEV_EMERG => 0
  | .SEV_ALERT => 1
  | .SEV_CRIT => 2
  | .SEV_ERR => 3
  | .SEV_WARNING => 4
  | .SEV_NOTICE => 5
  | .SEV_INFO => 6
  | .SEV_DEBUG => 7

/-- decompose_pri, pri.rs lines 156-164: the facility is the value shifted
right three bits, the severity the low three bits.  The argument is a u8, so
a natural below 256. -/
def decompose_pri (pri : Nat) : Option SyslogFacility × Option SyslogSeverity :=
  (SyslogFacility.from_int (pri >>> 3), SyslogSeverity.from_int (pri &&& 0x7))

/-- compose_pri, pri.rs lines 167-169. -/
def compose_pri (facility : SyslogFacility) (severity : SyslogSeverity) : Nat :=
  (facility.code <<< 3) + severity.code

/-- Recompose an already decomposed priority; defined when both parts are
present. -/
def compose_decomposed : Option SyslogFacility × Option SyslogSeverity → Option Nat
  | (some f, some s) => some (compose_pri f s)
  | _ => none

/-- The pri parser, pri.rs lines 173-178: an optional angle-bracketed u8,
decomposed; a missing or malformed prefix yields absent facility and
severity and consumes nothing. -/
def pri (input : Str) : Str × (Option SyslogFacility × Option SyslogSeverity) :=
  match tagC ['<'] input with
  | none => (input, (none, none))
  | some (r1, _) =>
    match digitsU8 r1 with
    | none => (input, (none, none))
    | some (r2, n) =>
      match tagC ['>'] r2 with
      | none => (input, (none, none))
      | some (r3, _) => (r3, decompose_pri n)

/-- A structured data element, structured_data.rs lines 12-16. -/
structure StructuredElement where
  id : Str
  params : List (Str × Str)
deriving DecidableEq, Repr

/-- Lexicographic strict order on character lists: the Rust Ord of str. -/
def strLt : Str → Str → Bool
  | [], [] => false
  | [], _ :: _ => true
  | _ :: _, [] => false
  | a :: as_, b :: bs => if a = b then strLt as_ bs else decide (a < b)

/-- The Rust Ord of a pair of strings: first component, then second. -/
def pairLe (x y : Str × Str) : Bool :=
  if x.1 = y.1 then !(strLt y.2 x.2) else strLt x.1 y.1

/-- Insert into a sorted list, keeping order. -/
def insertSorted (le : α → α → Bool) (x : α) : List α → List α
  | [] => [x]
  | y :: ys => if le x y then x :: y :: ys else y :: insertSorted le x ys

/-- Sort a list by the given total order: the model of Vec sort. -/
def sortBy (le : α → α → Bool) : List α → List α
  | [] => []
  | x :: xs => insertSorted le x (sortBy le xs)

/-- The PartialEq of StructuredElement, structured_data.rs lines 49-68: ids
must match, then both param lists are cloned, sorted, zipped and compared
pairwise.  The zip stops at the shorter list, exactly as the source does. -/
def structuredElementEq (a b : StructuredElement) : Bool :=
  if a.id ≠ b.id then false
  else
    let params1 := sortBy pairLe a.params
    let params2 := sortBy pairLe b.params
    (params1.zip params2).all fun pq => pq.1.1 = pq.2.1 ∧ pq.1.2 = pq.2.2

/-- The escape-stripping loop inside the ParamsIter Iterator::next,
structured_data.rs lines 92-109, one character at a time with the escaped
flag threaded through. -/
def unescapeLoop : Bool → Str → Str
  | _, [] => []
  | escFlag, c :: rest =>
    if c == '\\' && !escFlag then unescapeLoop true rest
    else if c == 'n' && escFlag then '\n' :: unescapeLoop false rest
    else if c != '"' && c != ']' && c != '\\' && escFlag then
      '\\' :: c :: unescapeLoop false rest
    else c :: unescapeLoop false rest

/-- The lazily decoded value of a stored param, as produced by params(). -/
def unescapeValue (v : Str) : Str := unescapeLoop false v

/-- Modelled from the spec: the escaping encoder for an owned param value.
The src revision has no such encoder (the Display of StructuredElement
writes values verbatim), so this follows the spec wording of the escape
round-trip: a literal double quote becomes a backslash and a quote, a
literal backslash becomes two backslashes, every other character is kept. -/
def escapeValue : Str → Str
  | [] => []
  | c :: rest =>
    if c == '"' then '\\' :: '"' :: escapeValue rest
    else if c == '\\' then '\\' :: '\\' :: escapeValue rest
    else c :: escapeValue rest

/-- nom escaped(take_while1 p, backslash, anychar) span length, one
character at a time with a pending-escape flag; none models a nom failure
(a lone trailing backslash with no character to escape). -/
def escapedSpanLenAux (p : Char → Bool) : Bool → Str → Option Nat
  | false, [] => some 0
  | true, [] => none
  | false, c :: rest =>
    if p c then (escapedSpanLenAux p false rest).map (· + 1)
    else if c == '\\' then (escapedSpanLenAux p true rest).map (· + 1)
    else some 0
  | true, _ :: rest => (escapedSpanLenAux p false rest).map (· + 1)

/-- The length of the span matched by nom escaped. -/
def escapedSpanLen (p : Char → Bool) (input : Str) : Option Nat :=
  escapedSpanLenAux p false input

/-- nom escaped as used by param_value: fails when it would match nothing,
which is why the source handles the empty quoted string separately (see the
comment at structured_data.rs lines 118-120). -/
def escapedScan (p : Char → Bool) (input : Str) : Option (Str × Str) :=
  match escapedSpanLen p input with
  | none => none
  | some 0 => none
  | some n => some (input.drop n, input.take n)

/-- The quoted-and-escaped branch of param_value, structured_data.rs lines
121-125: a quote, an escaped span of characters other than backslash and
quote, a quote. -/
def quotedEscapedValue (input : Str) : Option (Str × Str) :=
  (tagC ['"'] input).bind fun r1 =>
  (escapedScan (fun c => !(c == '\\') && !(c == '"')) r1.1).bind fun r2 =>
  (tagC ['"'] r2.1).map fun r3 => (r3.1, r2.2)

/-- param_value, structured_data.rs lines 116-127: the empty quoted string
is a special first alternative, then the general quoted escaped value. -/
def param_value (input : Str) : Option (Str × Str) :=
  match tagC ['"', '"'] input with
  | some (rest, _) => some (rest, [])
  | none => quotedEscapedValue input

/-- param, structured_data.rs lines 130-136: a name up to a bracket or
equals, an equals sign, optional spaces, then the value. -/
def param (input : Str) : Option (Str × (Str × Str)) :=
  (takeTill1P (fun c => c == ']' || c == '=') input).bind fun r1 =>
  (tagC ['='] r1.1).bind fun r2 =>
  (space0 r2.1).bind fun r3 =>
  (param_value r3.1).map fun r4 => (r4.1, (r1.2, r4.2))

/-- structured_datum_strict, structured_data.rs lines 140-153. -/
def structured_datum_strict (input : Str) :
    Option (Str × Option StructuredElement) :=
  (tagC ['['] input).bind fun r1 =>
  (takeTill1P (fun c => isRustWhitespace c || c == ']' || c == '=') r1.1).bind fun r2 =>
  (space0 r2.1).bind fun r3 =>
  (sepList0 (tagC [' ']) param r3.1).bind fun r4 =>
  (tagC [']'] r4.1).map fun r5 =>
    (r5.1, some (StructuredElement.mk r2.2 r4.2))

/-- structured_datum_permissive, structured_data.rs lines 156-162: the
strict parser, or else anything up to the closing bracket, yielding no
element. -/
def structured_datum_permissive (input : Str) :
    Option (Str × Option StructuredElement) :=
  match structured_datum_strict input with
  | some r => some r
  | none =>
    (tagC ['['] input).bind fun r1 =>
    (takeUntilC [']'] r1.1).bind fun r2 =>
    (tagC [']'] r2.1).map fun r3 => (r3.1, none)

/-- structured_datum, structured_data.rs lines 165-173. -/
def structured_datum (allow_failure : Bool) (input : Str) :
    Option (Str × Option StructuredElement) :=
  if allow_failure then structured_datum_permissive input
  else structured_datum_strict input

/-- structured_data_optional, structured_data.rs lines 181-192: a lone dash
means no structured data; otherwise one or more elements, the failed
permissive ones filtered out. -/
def structured_data_optional (allow_failure : Bool) (input : Str) :
    Option (Str × List StructuredElement) :=
  match tagC ['-'] input with
  | some (rest, _) => some (rest, [])
  | none =>
    (many1P (structured_datum allow_failure) input).map fun r =>
      (r.1, r.2.filterMap id)

/-- structured_data, structured_data.rs lines 176-178: the permissive mode. -/
def structured_data (input : Str) : Option (Str × List StructuredElement) :=
  structured_data_optional true input

/-- An incomplete date, timestamp.rs line 13: month, date, hour, minutes,
seconds. -/
abbrev IncompleteDate := Nat × Nat × Nat × Nat × Nat

/-- A chrono DateTime with a FixedOffset: civil fields plus the offset in
seconds east of UTC.  Subsecond precision is not modelled. -/
structure Timestamp where
  year : Int
  month : Nat
  day : Nat
  hour : Nat
  minute : Nat
  second : Nat
  offset : Int
deriving DecidableEq, Repr

/-- A chrono NaiveDateTime: civil fields without an offset. -/
structure NaiveDT where
  year : Int
  month : Nat
  day : Nat
  hour : Nat
  minute : Nat
  second : Nat
deriving DecidableEq, Repr

/-- Proleptic Gregorian leap year. -/
def isLeapYear (y : Int) : Bool := y % 4 == 0 && (y % 100 != 0 || y % 400 == 0)

/-- Days in a month of the proleptic Gregorian calendar. -/
def daysInMonth (y : Int) : Nat → Nat
  | 1 => 31
  | 2 => if isLeapYear y then 29 else 28
  | 3 => 31
  | 4 => 30
  | 5 => 31
  | 6 => 30
  | 7 => 31
  | 8 => 31
  | 9 => 30
  | 10 => 31
  | 11 => 30
  | 12 => 31
  | _ => 0

/-- Validity of a chrono calendar date, as checked by from_ymd_opt: month
and day in range for the proleptic Gregorian calendar, year within the
chrono year range. -/
def validYmd (y : Int) (m d : Nat) : Bool :=
  1 ≤ m && m ≤ 12 && 1 ≤ d && d ≤ daysInMonth y m && -262144 ≤ y && y ≤ 262143

/-- Validity of a time of day, as checked by and_hms_opt. -/
def validHms (h mi s : Nat) : Bool := h < 24 && mi < 60 && s < 60

/-- Floor division, used by the civil-day conversions below. -/
def fdiv (a b : Int) : Int := Int.fdiv a b

/-- Days since 1970-01-01 of a civil date (standard civil-from-days
arithmetic on the proleptic Gregorian calendar). -/
def daysFromCivil (y : Int) (m d : Nat) : Int :=
  let y2 : Int := if m ≤ 2 then y - 1 else y
  let era : Int := fdiv y2 400
  let yoe : Int := y2 - era * 400
  let mp : Int := (Int.ofNat m + 9) % 12
  let doy : Int := fdiv (153 * mp + 2) 5 + Int.ofNat d - 1
  let doe : Int := yoe * 365 + fdiv yoe 4 - fdiv yoe 100 + doy
  era * 146097 + doe - 719468

/-- Civil date of a count of days since 1970-01-01; inverse of
daysFromCivil. -/
def civilFromDays (z0 : Int) : Int × Nat × Nat :=
  let z := z0 + 719468
  let era := fdiv z 146097
  let doe := z - era * 146097
  let yoe := fdiv (doe - fdiv doe 1460 + fdiv doe 36524 - fdiv doe 146096) 365
  let y := yoe + era * 400
  let doy := doe - (365 * yoe + fdiv yoe 4 - fdiv yoe 100)
  let mp := fdiv (5 * doy + 2) 153
  let d := doy - fdiv (153 * mp + 2) 5 + 1
  let m := mp + (if mp < 10 then 3 else -9)
  (y + (if m ≤ 2 then 1 else 0), m.toNat, d.toNat)

/-- Seconds since the epoch of a naive civil datetime. -/
def naiveEpochSecs (n : NaiveDT) : Int :=
  daysFromCivil n.year n.month n.day * 86400 +
    n.hour * 3600 + n.minute * 60 + n.second

/-- The UTC instant of a timestamp, in seconds since the epoch: the civil
fields minus the offset.  chrono compares DateTime values by instant. -/
def epochSecs (t : Timestamp) : Int :=
  daysFromCivil t.year t.month t.day * 86400 +
    t.hour * 3600 + t.minute * 60 + t.second - t.offset

/-- chrono DateTime from_utc with a fixed offset: the instant is the naive
datetime read as UTC, and the civil representation is shifted by the
offset. -/
def datetime_from_utc (n : NaiveDT) (off : Int) : Timestamp :=
  let total := naiveEpochSecs n + off
  let days := fdiv total 86400
  let secs := (total - days * 86400).toNat
  let ymd := civilFromDays days
  ⟨ymd.1, ymd.2.1, ymd.2.2, secs / 3600, secs % 3600 / 60, secs % 60, off⟩

/-- chrono with_ymd_and_hms on a fixed offset: defined exactly on valid
civil datetimes (with a fixed offset the LocalResult is never ambiguous, so
earliest() succeeds exactly on validity). -/
def withYmdHms (off : Int) (y : Int) (m d h mi s : Nat) : Option Timestamp :=
  if validYmd y m d && validHms h mi s then some ⟨y, m, d, h, mi, s, off⟩
  else none

/-- parse_month, timestamp.rs lines 16-32: three letters, lowercased. -/
def parse_month (s : Str) : Option Nat :=
  let ml := s.map Char.toLower
  if ml = strL "jan" then some 1
  else if ml = strL "feb" then some 2
  else if ml = strL "mar" then some 3
  else if ml = strL "apr" then some 4
  else if ml = strL "may" then some 5
  else if ml = strL "jun" then some 6
  else if ml = strL "jul" then some 7
  else if ml = strL "aug" then some 8
  else if ml = strL "sep" then some 9
  else if ml = strL "oct" then some 10
  else if ml = strL "nov" then some 11
  else if ml = strL "dec" then some 12
  else none

/-- timestamp_3164_no_year, timestamp.rs lines 35-51: MMM DD HH:MM:SS with
an optional trailing colon. -/
def timestamp_3164_no_year (input : Str) : Option (Str × IncompleteDate) :=
  (takeP 3 input).bind fun (r1, mstr) =>
  (parse_month mstr).bind fun month =>
  (space1 r1).bind fun (r2, _) =>
  (digitsU32 r2).bind fun (r3, date) =>
  (space1 r3).bind fun (r4, _) =>
  (digitsU32 r4).bind fun (r5, hour) =>
  (tagC [':'] r5).bind fun (r6, _) =>
  (digitsU32 r6).bind fun (r7, minute) =>
  (tagC [':'] r7).bind fun (r8, _) =>
  (digitsU32 r8).bind fun (r9, seconds) =>
  (optP (tagC [':']) r9).map fun (r10, _) =>
    (r10, (month, date, hour, minute, seconds))

/-- timestamp_3164_with_year, timestamp.rs lines 54-77: MMM DD YYYY
HH:MM:SS, validated through from_ymd_opt and and_hms_opt. -/
def timestamp_3164_with_year (input : Str) : Option (Str × NaiveDT) :=
  (takeP 3 input).bind fun (r1, mstr) =>
  (parse_month mstr).bind fun month =>
  (space1 r1).bind fun (r2, _) =>
  (digitsU32 r2).bind fun (r3, date) =>
  (space1 r3).bind fun (r4, _) =>
  (digitsBounded 2147483648 r4).bind fun (r5, year) =>
  (space1 r5).bind fun (r6, _) =>
  (digitsU32 r6).bind fun (r7, hour) =>
  (tagC [':'] r7).bind fun (r8, _) =>
  (digitsU32 r8).bind fun (r9, minute) =>
  (tagC [':'] r9).bind fun (r10, _) =>
  (digitsU32 r10).bind fun (r11, seconds) =>
  (optP (tagC [':']) r11).bind fun (r12, _) =>
  if validYmd (Int.ofNat year) month date && validHms hour minute seconds then
    some (r12, ⟨Int.ofNat year, month, date, hour, minute, seconds⟩)
  else none

/-- make_timestamp, timestamp.rs lines 81-104.  The Local timezone of the
tz-is-none branch is modelled as the ambient fixed offset localOffset; with
a fixed offset earliest() succeeds exactly on valid civil datetimes. -/
def make_timestamp (idate : IncompleteDate) (get_year : IncompleteDate → Int)
    (tz : Option Int) (localOffset : Int) : Option Timestamp :=
  let year := get_year idate
  match idate with
  | (mon, d, h, min, s) =>
    match tz with
    | some off => withYmdHms off year mon d h min s
    | none => withYmdHms localOffset year mon d h min s

/-- Two decimal digits. -/
def digit2 (a b : Char) : Option Nat :=
  if a.isDigit && b.isDigit then some (10 * digitVal a + digitVal b) else none

/-- Four decimal digits. -/
def digit4 (a b c d : Char) : Option Nat :=
  if a.isDigit && b.isDigit && c.isDigit && d.isDigit then
    some (1000 * digitVal a + 100 * digitVal b + 10 * digitVal c + digitVal d)
  else none

/-- Fractional seconds of an RFC3339 timestamp: accepted and discarded
(subsecond precision is not modelled). -/
def parseFrac : Str → Option Str
  | '.' :: rest =>
    match takeWhile1P Char.isDigit rest with
    | some (r, _) => some r
    | none => none
  | s => some s

/-- The numeric offset tail of an RFC3339 timestamp. -/
def parseOffset : Str → Option Int
  | ['Z'] => some 0
  | ['z'] => some 0
  | [sg, h1, h2, ':', m1, m2] =>
    (digit2 h1 h2).bind fun hh =>
    (digit2 m1 m2).bind fun mm =>
    if hh < 24 && mm < 60 then
      let secs : Int := hh * 3600 + mm * 60
      if sg = '+' then some secs
      else if sg = '-' then some (-secs)
      else none
    else none
  | _ => none

/-- Model of chrono DateTime parse_from_rfc3339 on an isolated span: a
four-digit year, two-digit month, day, hour, minute and second in the fixed
RFC3339 shape, an optional fraction, and a Z or signed hh:mm offset, with
calendar validity checked.  The whole span must be consumed. -/
def parseRfc3339 (s : Str) : Option Timestamp :=
  match s with
  | y1 :: y2 :: y3 :: y4 :: '-' :: m1 :: m2 :: '-' :: d1 :: d2 :: tc ::
      h1 :: h2 :: ':' :: mi1 :: mi2 :: ':' :: s1 :: s2 :: rest =>
    if tc = 'T' || tc = 't' || tc = ' ' then
      (digit4 y1 y2 y3 y4).bind fun y =>
      (digit2 m1 m2).bind fun mo =>
      (digit2 d1 d2).bind fun d =>
      (digit2 h1 h2).bind fun h =>
      (digit2 mi1 mi2).bind fun mi =>
      (digit2 s1 s2).bind fun se =>
      (parseFrac rest).bind fun r2 =>
      (parseOffset r2).bind fun off =>
      if validYmd (Int.ofNat y) mo d && validHms h mi se then
        some ⟨Int.ofNat y, mo, d, h, mi, se, off⟩
      else none
    else none
  | _ => none

/-- Two-digit zero-padded decimal. -/
def pad2 (n : Nat) : Str := [Nat.digitChar (n / 10 % 10), Nat.digitChar (n % 10)]

/-- Four-digit zero-padded decimal. -/
def pad4 (n : Nat) : Str :=
  [Nat.digitChar (n / 1000 % 10), Nat.digitChar (n / 100 % 10),
   Nat.digitChar (n / 10 % 10), Nat.digitChar (n % 10)]

/-- The offset tail written by chrono to_rfc3339: a sign and hh:mm. -/
def renderOffset (off : Int) : Str :=
  let a := off.natAbs
  (if off < 0 then '-' else '+') :: (pad2 (a / 3600) ++ ':' :: pad2 (a % 3600 / 60))

/-- chrono to_rfc3339 for a timestamp with no subseconds: the fixed
four-plus-two-digit civil fields and the signed offset. -/
def to_rfc3339 (t : Timestamp) : Str :=
  pad4 t.year.toNat ++ '-' :: pad2 t.month ++ '-' :: pad2 t.day ++
  'T' :: pad2 t.hour ++ ':' :: pad2 t.minute ++ ':' :: pad2 t.second ++
  renderOffset t.offset

/-- timestamp_3339, timestamp.rs lines 8-10: everything up to a space,
parsed as RFC3339. -/
def timestamp_3339 (input : Str) : Option (Str × Timestamp) :=
  (takeUntilC [' '] input).bind fun (rest, span) =>
  (parseRfc3339 span).map fun ts => (rest, ts)

/-- timestamp_3164, timestamp.rs lines 117-142: the no-year form resolved
through the caller-supplied year function, then the with-year form, then
the RFC3339 fallback. -/
def timestamp_3164 (get_year : IncompleteDate → Int) (tz : Option Int)
    (localOffset : Int) (input : Str) : Option (Str × Timestamp) :=
  match (timestamp_3164_no_year input).bind fun r =>
      (make_timestamp r.2 get_year tz localOffset).map fun dt => (r.1, dt) with
  | some res => some res
  | none =>
    match (timestamp_3164_with_year input).map fun r =>
        (r.1,
          match tz with
          | some off => datetime_from_utc r.2 off
          | none =>
            Timestamp.mk r.2.year r.2.month r.2.day r.2.hour r.2.minute
              r.2.second localOffset) with
    | some res => some res
    | none => timestamp_3339 input

/-- The optional-token parser of parsers.rs lines 20-38: a nonempty run of
non-whitespace (excluding colons unless allowed), where a lone colon fails,
a trailing colon is split off and left in the input, and a dash means an
empty value.  The trim in the source is the identity here because the run
can not contain whitespace. -/
def optionalToken (has_colons : Bool) (input : Str) : Option (Str × Option Str) :=
  (takeWhile1P (fun c => !(isRustWhitespace c) && (has_colons || !(c == ':'))) input).bind
    fun (remaining, value) =>
      if value = [':'] then none
      else if value.getLast? = some ':' then
        some (':' :: remaining, some value.dropLast)
      else if value = ['-'] || value = [] then some (remaining, none)
      else some (remaining, some value)

/-- hostname, parsers.rs lines 41-43. -/
def hostname (input : Str) : Option (Str × Option Str) := optionalToken true input

/-- tagname, parsers.rs lines 46-48. -/
def tagname (input : Str) : Option (Str × Option Str) := optionalToken false input

/-- appname, parsers.rs lines 51-53. -/
def appname (input : Str) : Option (Str × Option Str) := optionalToken true input

/-- procid field parser, parsers.rs lines 56-58. -/
def procidTok (input : Str) : Option (Str × Option Str) := optionalToken true input

/-- msgid field parser, parsers.rs lines 61-63. -/
def msgidTok (input : Str) : Option (Str × Option Str) := optionalToken true input

/-- Rust str parse at i32: an optional sign followed by at least one digit,
all digits, within the i32 range. -/
def parse_i32 (s : Str) : Option Int :=
  match s with
  | '+' :: rest =>
    if rest ≠ [] ∧ rest.all Char.isDigit = true ∧ digitsVal rest ≤ 2147483647 then
      some (Int.ofNat (digitsVal rest))
    else none
  | '-' :: rest =>
    if rest ≠ [] ∧ rest.all Char.isDigit = true ∧ digitsVal rest ≤ 2147483648 then
      some (-(Int.ofNat (digitsVal rest)))
    else none
  | _ =>
    if s ≠ [] ∧ s.all Char.isDigit = true ∧ digitsVal s ≤ 2147483647 then
      some (Int.ofNat (digitsVal s))
    else none

/-- ProcId, procid.rs lines 5-8. -/
inductive ProcId where
  | PID (pid : Int)
  | Name (name : Str)
deriving DecidableEq, Repr

/-- The From str conversion of procid.rs lines 28-35: a token that parses
entirely as an i32 is a PID, otherwise a Name. -/
def ProcId.fromStr (s : Str) : ProcId :=
  match parse_i32 s with
  | some n => .PID n
  | none => .Name s

/-- systag, rfc3164.rs lines 19-24: a process name (possibly empty) up to
whitespace, colon or bracket, then a bracketed nonempty pid. -/
def systag (input : Str) : Option (Str × (Str × Str)) :=
  (takeWhileP (fun c => !(isRustWhitespace c) && !(c == ':') && !(c == '[')) input).bind
    fun (r1, app) =>
  (tagC ['['] r1).bind fun (r2, _) =>
  (isNotC [']'] r2).bind fun (r3, pid) =>
  (tagC [']'] r3).map fun (r4, _) => (r4, (app, pid))

/-- resolve_host_and_tag, rfc3164.rs lines 34-60, returning hostname,
appname and procid. -/
def resolve_host_and_tag (field1 field2 : Option (Option Str)) :
    Option Str × Option Str × Option Str :=
  match field1, field2 with
  | some host, some (some tag) =>
    match systag tag with
    | some ([], (app, pid)) => (host, some app, some pid)
    | _ => (host, some tag, none)
  | some (some field), none =>
    match systag field with
    | some ([], (app, pid)) => (none, some app, some pid)
    | _ => (some field, none, none)
  | none, some (some field) =>
    match systag field with
    | some ([], (app, pid)) => (none, some app, some pid)
    | _ => (some field, none, none)
  | _, _ => (none, none, none)

/-- Protocol, message.rs lines 15-18. -/
inductive Protocol where
  | RFC3164
  | RFC5424 (version : Nat)
deriving DecidableEq, Repr

/-- The unified Message record, message.rs lines 21-32. -/
structure Message where
  protocol : Protocol
  facility : Option SyslogFacility
  severity : Option SyslogSeverity
  timestamp : Option Timestamp
  hostname : Option Str
  appname : Option Str
  procid : Option ProcId
  msgid : Option Str
  structured_data : List StructuredElement
  msg : Str
deriving DecidableEq, Repr

/-- The rfc3164 parse, rfc3164.rs lines 63-102: pri, optional spaces, the
3164 timestamp alternation, up to two optional space-preceded tokens,
optional spaces, an optional colon, optional spaces, optional strict
structured data, optional spaces, and the rest as the message. -/
def rfc3164_parse (get_year : IncompleteDate → Int) (tz : Option Int)
    (localOffset : Int) (input : Str) : Option (Str × Message) :=
  match pri input with
  | (r1, p) =>
    (space0 r1).bind fun (r2, _) =>
    (timestamp_3164 get_year tz localOffset r2).bind fun (r3, ts) =>
    (optP (fun i => (tagC [' '] i).bind fun (ri, _) => hostname ri) r3).bind
      fun (r4, field1) =>
    (optP (fun i => (tagC [' '] i).bind fun (ri, _) => tagname ri) r4).bind
      fun (r5, field2) =>
    (space0 r5).bind fun (r6, _) =>
    (optP (tagC [':']) r6).bind fun (r7, _) =>
    (space0 r7).bind fun (r8, _) =>
    (optP (structured_data_optional false) r8).bind fun (r9, sd) =>
    (space0 r9).bind fun (r10, _) =>
    (restP r10).map fun (r11, msg) =>
      match resolve_host_and_tag field1 field2 with
      | (host, app, pid) =>
        (r11,
          { protocol := .RFC3164, facility := p.1, severity := p.2,
            timestamp := some ts, hostname := host, appname := app,
            procid := pid.map ProcId.fromStr, msgid := none,
            structured_data := sd.getD [], msg := msg })

/-- Decimal rendering of a natural, least significant digit last; the fuel
is one more than the number so it never runs out. -/
def renderNatAux : Nat → Nat → Str
  | 0, _ => []
  | fuel + 1, n =>
    if n < 10 then [Nat.digitChar n]
    else renderNatAux fuel (n / 10) ++ [Nat.digitChar (n % 10)]

/-- Decimal rendering of a natural number, as Rust Display does. -/
def renderNat (n : Nat) : Str := renderNatAux (n + 1) n

/-- Decimal rendering of an integer. -/
def renderInt (i : Int) : Str :=
  if i < 0 then '-' :: renderNat i.natAbs else renderNat i.toNat

/-- The Display of ProcId, procid.rs lines 10-17. -/
def displayProcId : ProcId → Str
  | .PID pid => renderInt pid
  | .Name name => name

/-- The Display of StructuredElement, structured_data.rs lines 37-47:
bracketed id then space-separated name="value" pairs, values written
verbatim. -/
def displayElement (e : StructuredElement) : Str :=
  '[' :: e.id ++
    (e.params.map fun nv => ' ' :: nv.1 ++ '=' :: '"' :: nv.2 ++ ['"']).flatten ++
    [']']

/-- The protocol slot of the Message Display: empty for RFC3164, the
version number for RFC5424. -/
def protocolString : Protocol → Str
  | .RFC3164 => []
  | .RFC5424 v => renderNat v

/-- The Display of Message, message.rs lines 34-80: pri composed with
defaulted facility and severity, the protocol slot, the RFC3339 timestamp
(now when absent, passed here as an argument), then hostname, appname,
procid and msgid with a dash for absent values, the structured data (a dash
only for RFC5424 when empty), and finally a space and the message. -/
def displayMessage (now : Timestamp) (m : Message) : Str :=
  '<' :: renderNat (compose_pri (m.facility.getD .LOG_SYSLOG) (m.severity.getD .SEV_DEBUG)) ++
  '>' :: protocolString m.protocol ++
  ' ' :: to_rfc3339 (m.timestamp.getD now) ++
  ' ' :: m.hostname.getD (strL "-") ++
  ' ' :: m.appname.getD (strL "-") ++
  ' ' :: (match m.procid with | some p => displayProcId p | none => strL "-") ++
  ' ' :: m.msgid.getD (strL "-") ++
  ' ' :: (if m.structured_data.isEmpty then
            (match m.protocol with | .RFC5424 _ => ['-'] | .RFC3164 => [])
          else (m.structured_data.map displayElement).flatten) ++
  ' ' :: m.msg

/-- chrono DateTime equality: by instant. -/
def tsOptEq : Option Timestamp → Option Timestamp → Bool
  | none, none => true
  | some a, some b => epochSecs a == epochSecs b
  | _, _ => false

/-- Elementwise list equality by a given comparison, lengths included: the
Vec PartialEq. -/
def listEqWith (eq : α → α → Bool) : List α → List α → Bool
  | [], [] => true
  | a :: as_, b :: bs => eq a b && listEqWith eq as_ bs
  | _, _ => false

/-- The PartialEq of Message, message.rs lines 82-94: all fields except the
protocol, with timestamps compared as instants and structured data through
the StructuredElement PartialEq. -/
def messageEq (a b : Message) : Bool :=
  decide (a.facility = b.facility) && decide (a.severity = b.severity) &&
  tsOptEq a.timestamp b.timestamp &&
  decide (a.hostname = b.hostname) && decide (a.appname = b.appname) &&
  decide (a.procid = b.procid) && decide (a.msgid = b.msgid) &&
  listEqWith structuredElementEq a.structured_data b.structured_data &&
  decide (a.msg = b.msg)

/-- The documented equivalence of a displayed dash and an absent optional
string field, as the round-trip claim words it. -/
def optStrEqModDash (a b : Option Str) : Bool :=
  decide (a = b) || (decide (a = some ['-']) && b.isNone) ||
    (a.isNone && decide (b = some ['-']))

/-- The dash equivalence lifted to the procid field. -/
def procIdEqModDash (a b : Option ProcId) : Bool :=
  decide (a = b) || (decide (a = some (.Name ['-'])) && b.isNone) ||
    (a.isNone && decide (b = some (.Name ['-'])))

/-- Message equality modulo the displayed-dash equivalence of the claim. -/
def messageEqModDash (a b : Message) : Bool :=
  decide (a.facility = b.facility) && decide (a.severity = b.severity) &&
  tsOptEq a.timestamp b.timestamp &&
  optStrEqModDash a.hostname b.hostname &&
  optStrEqModDash a.appname b.appname &&
  procIdEqModDash a.procid b.procid &&
  optStrEqModDash a.msgid b.msgid &&
  listEqWith structuredElementEq a.structured_data b.structured_data &&
  decide (a.msg = b.msg)

/-- Modelled from the spec: the RFC5424 grammar of spec section 4.4
producing the unified Message.  The revision of the rfc5424 module matching
message.rs is absent from src (the rfc5424.rs present is an older macro
revision whose helpers no longer exist in parsers.rs), so the strict
left-to-right field sequence follows the spec, built from the src parsers:
pri, the u32 version digits, timestamp_3339, the optional token parsers,
the ProcId conversion of procid.rs, and the structured data parser of
structured_data.rs with a dash for none, then the rest as the message. -/
def rfc5424_parse (input : Str) : Option (Str × Message) :=
  match pri input with
  | (r1, p) =>
    (digitsU32 r1).bind fun (r2, version) =>
    (space1 r2).bind fun (r3, _) =>
    (timestamp_3339 r3).bind fun (r4, ts) =>
    (space1 r4).bind fun (r5, _) =>
    (hostname r5).bind fun (r6, host) =>
    (space1 r6).bind fun (r7, _) =>
    (appname r7).bind fun (r8, app) =>
    (space1 r8).bind fun (r9, _) =>
    (procidTok r9).bind fun (r10, pid) =>
    (space1 r10).bind fun (r11, _) =>
    (msgidTok r11).bind fun (r12, mid) =>
    (space0 r12).bind fun (r13, _) =>
    (structured_data r13).bind fun (r14, sd) =>
    (space0 r14).bind fun (r15, _) =>
    (restP r15).map fun (r16, msg) =>
      (r16,
        { protocol := .RFC5424 version, facility := p.1, severity := p.2,
          timestamp := some ts, hostname := host, appname := app,
          procid := pid.map ProcId.fromStr, msgid := mid,
          structured_data := sd, msg := msg })

/-- The top-level dispatch of lib.rs parse, lines 35-68, over the unified
Message: try the RFC5424 grammar, and on failure the RFC3164 grammar on the
original input. -/
def parse_line (get_year : IncompleteDate → Int) (tz : Option Int)
    (localOffset : Int) (input : Str) : Option Message :=
  match rfc5424_parse input with
  | some (_, m) => some m
  | none => (rfc3164_parse get_year tz localOffset input).map fun r => r.2

/-- The old header record, header.rs lines 7-17. -/
structure Header where
  facility : Option SyslogFacility
  severity : Option SyslogSeverity
  version : Option Nat
  timestamp : Option Timestamp
  hostname : Option Str
  appname : Option Str
  procid : Option Str
  msgid : Option Str
deriving DecidableEq, Repr

/-- Modelled from the spec: Header new, called at lib.rs line 87 but absent
from header.rs in src.  Per the spec fallback, every structured field is
absent. -/
def Header.new : Header := ⟨none, none, none, none, none, none, none, none⟩

/-- The old protocol tag of lib.rs lines 20-24, without a version payload. -/
inductive OldProtocol where
  | RFC3164
  | RFC5424
deriving DecidableEq, Repr

/-- The old message record of lib.rs lines 26-32. -/
structure OldMessage where
  header : Header
  protocol : OldProtocol
  structured_data : List StructuredElement
  msg : Str
deriving DecidableEq, Repr

/-- The old rfc5424 header chain of rfc5424.rs lines 59-82: pri, version,
then space-separated timestamp, hostname, appname, procid and msgid.  That
revision names pri and u32_digits helpers that are absent from the src
parsers.rs; the corresponding src parsers (pri of pri.rs, digits at u32,
the optional token parsers) are used for them, giving the facility and
severity split of the Header in header.rs. -/
def rfc5424_header (input : Str) : Option (Str × Header) :=
  match pri input with
  | (r1, p) =>
    (digitsU32 r1).bind fun (r2, version) =>
    (space1 r2).bind fun (r3, _) =>
    (timestamp_3339 r3).bind fun (r4, ts) =>
    (space1 r4).bind fun (r5, _) =>
    (hostname r5).bind fun (r6, host) =>
    (space1 r6).bind fun (r7, _) =>
    (appname r7).bind fun (r8, app) =>
    (space1 r8).bind fun (r9, _) =>
    (procidTok r9).bind fun (r10, pid) =>
    (space1 r10).bind fun (r11, _) =>
    (msgidTok r11).map fun (r12, mid) =>
      (r12, ⟨p.1, p.2, some version, some ts, host, app, pid, mid⟩)

/-- Modelled from the spec: the rfc3164 header called at lib.rs line 54 but
absent from src (the rfc3164.rs present exports a full-message parse
instead).  Spec section 4.5: pri, the 3164 timestamp alternation, up to two
optional space-preceded tokens resolved by the host-and-tag rule, then an
optional colon; built from the src pri, timestamp and token parsers. -/
def rfc3164_header (get_year : IncompleteDate → Int) (tz : Option Int)
    (localOffset : Int) (input : Str) : Option (Str × Header) :=
  match pri input with
  | (r1, p) =>
    (space0 r1).bind fun (r2, _) =>
    (timestamp_3164 get_year tz localOffset r2).bind fun (r3, ts) =>
    (optP (fun i => (tagC [' '] i).bind fun (ri, _) => hostname ri) r3).bind
      fun (r4, field1) =>
    (optP (fun i => (tagC [' '] i).bind fun (ri, _) => tagname ri) r4).bind
      fun (r5, field2) =>
    (space0 r5).bind fun (r6, _) =>
    (optP (tagC [':']) r6).map fun (r7, _) =>
      match resolve_host_and_tag field1 field2 with
      | (host, app, pid) =>
        (r7, ⟨p.1, p.2, none, some ts, host, app, pid, none⟩)

/-- The top-level parse of lib.rs lines 35-68: the RFC5424 header followed
by structured data and the message, and on any failure there the RFC3164
header followed by optional structured data and the message.  The Local
timezone of the old revision is the ambient localOffset. -/
def lib_parse (get_year : IncompleteDate → Int) (localOffset : Int)
    (input : Str) : Option (Str × OldMessage) :=
  match rfc5424_header input with
  | some (r1, header) =>
    (space0 r1).bind fun (r2, _) =>
    (structured_data r2).bind fun (r3, sd) =>
    (space0 r3).bind fun (r4, _) =>
    some ([], ⟨header, .RFC5424, sd, r4⟩)
  | none =>
    (rfc3164_header get_year none localOffset input).bind fun (r1, header) =>
    (space0 r1).bind fun (r2, _) =>
    (optP structured_data r2).bind fun (r3, sd) =>
    (space0 r3).bind fun (r4, _) =>
    some ([], ⟨header, .RFC3164, sd.getD [], r4⟩)

/-- parse_message_with_year, lib.rs lines 79-93: on failure the entire
input becomes the message and the rest of the fields are empty. -/
def parse_message_with_year (get_year : IncompleteDate → Int)
    (localOffset : Int) (input : Str) : OldMessage :=
  match lib_parse get_year localOffset input with
  | some (_, m) => m
  | none => ⟨Header.new, .RFC3164, [], input⟩

/-- Whitespace trimming at both ends, the claimed entry behaviour. -/
def trimWs (s : Str) : Str :=
  ((s.dropWhile isRustWhitespace).reverse.dropWhile isRustWhitespace).reverse

/-- The single-token host-or-tag rule as the claim words it: the token is
matched against a tag grammar of app-bracket-pid or a bare app; on a match
the token supplies appname and procid with no hostname, otherwise it is the
hostname.  A bare app is a nonempty token of tag-name characters. -/
def isBareAppToken (f : Str) : Bool :=
  !f.isEmpty && f.all fun c => !(isRustWhitespace c) && !(c == ':') && !(c == '[')

/-- The spec-worded single-token resolution, for comparison with
resolve_host_and_tag. -/
def spec_single_token_rule (field : Str) : Option Str × Option Str × Option Str :=
  match systag field with
  | some ([], (app, pid)) => (none, some app, some pid)
  | _ =>
    if isBareAppToken field then (none, some field, none)
    else (some field, none, none)

/-- A space-delimited header token that the optional-token parser returns
verbatim: nonempty, free of whitespace, not a lone colon or dash, and
without a trailing colon.  This is the delimiter-safe field class of the
round-trip claim. -/
def tokenSafe (t : Str) : Prop :=
  t ≠ [] ∧ (∀ c ∈ t, isRustWhitespace c = false) ∧ t ≠ [':'] ∧
    t.getLast? ≠ some ':' ∧ t ≠ ['-']

/-- A structured-data id or param name: nonempty, free of whitespace,
closing brackets and equals signs. -/
def nameSafe (t : Str) : Prop :=
  t ≠ [] ∧ ∀ c ∈ t, isRustWhitespace c = false ∧ c ≠ ']' ∧ c ≠ '='

/-- A structured-data param value: free of quotes and backslashes. -/
def valueSafe (v : Str) : Prop := ∀ c ∈ v, c ≠ '"' ∧ c ≠ '\\'

/-- A structured element with delimiter-safe id, names and values. -/
def elementSafe (e : StructuredElement) : Prop :=
  nameSafe e.id ∧ ∀ nv ∈ e.params, nameSafe nv.1 ∧ valueSafe nv.2

/-- A timestamp whose to_rfc3339 rendering the RFC3339 parser inverts: a
four-digit nonnegative year, valid civil fields, and a whole-minute offset
below one day. -/
def tsRenderSafe (t : Timestamp) : Prop :=
  0 ≤ t.year ∧ t.year ≤ 9999 ∧ validYmd t.year t.month t.day = true ∧
    validHms t.hour t.minute t.second = true ∧
    t.offset % 60 = 0 ∧ -86400 < t.offset ∧ t.offset < 86400

/-- A procid whose display re-parses to itself: a pid within the i32 range,
or a delimiter-safe name that does not itself parse as an i32. -/
def procIdSafe : ProcId → Prop
  | .PID n => -2147483648 ≤ n ∧ n ≤ 2147483647
  | .Name s => tokenSafe s ∧ parse_i32 s = none

/-! General lemmas about the combinator layer. -/

theorem takeWhile_sat_append (p : Char → Bool) (xs ys : Str)
    (h : ∀ c ∈ xs, p c = true) :
    (xs ++ ys).takeWhile p = xs ++ ys.takeWhile p := by
  induction xs with
  | nil => rfl
  | cons c rest ih =>
    have hc : p c = true := h c (List.mem_cons_self c rest)
    simp only [List.cons_append, List.takeWhile_cons, hc, if_true]
    rw [ih fun d hd => h d (List.mem_cons_of_mem c hd)]

theorem dropWhile_sat_append (p : Char → Bool) (xs ys : Str)
    (h : ∀ c ∈ xs, p c = true) :
    (xs ++ ys).dropWhile p = ys.dropWhile p := by
  induction xs with
  | nil => rfl
  | cons c rest ih =>
    have hc : p c = true := h c (List.mem_cons_self c rest)
    simp only [List.cons_append, List.dropWhile_cons, hc, if_true]
    exact ih fun d hd => h d (List.mem_cons_of_mem c hd)

theorem takeWhile1P_exact (p : Char → Bool) (xs ys : Str)
    (hne : xs ≠ []) (hall : ∀ c ∈ xs, p c = true)
    (hstop : ys.takeWhile p = []) :
    takeWhile1P p (xs ++ ys) = some (ys.dropWhile p, xs) := by
  unfold takeWhile1P
  rw [takeWhile_sat_append p xs ys hall, hstop, dropWhile_sat_append p xs ys hall]
  rw [List.append_nil]
  cases xs with
  | nil => exact absurd rfl hne
  | cons c rest => rfl

theorem takeWhile_nil_of_head_fail (p : Char → Bool) (c : Char) (ys : Str)
    (h : p c = false) : (c :: ys).takeWhile p = [] := by
  simp [List.takeWhile_cons, h]

theorem dropWhile_of_head_fail (p : Char → Bool) (c : Char) (ys : Str)
    (h : p c = false) : (c :: ys).dropWhile p = c :: ys := by
  simp [List.dropWhile_cons, h]

theorem tagC_append (t rest : Str) : tagC t (t ++ rest) = some (rest, t) := by
  unfold tagC
  rw [List.take_left, List.drop_left, if_pos rfl]

theorem takeUntilC_single (c : Char) (xs rest : Str) (h : c ∉ xs) :
    takeUntilC [c] (xs ++ c :: rest) = some (c :: rest, xs) := by
  induction xs with
  | nil =>
    show takeUntilC [c] (c :: rest) = some (c :: rest, [])
    unfold takeUntilC
    simp
  | cons x xs ih =>
    have hx : x ≠ c := fun hxc => h (hxc ▸ List.mem_cons_self x xs)
    have hmem : c ∉ xs := fun hm => h (List.mem_cons_of_mem x hm)
    show takeUntilC [c] (x :: (xs ++ c :: rest)) = some (c :: rest, x :: xs)
    unfold takeUntilC
    have hterm : List.take ([c] : Str).length (x :: (xs ++ c :: rest)) ≠ [c] := by
      simp [List.take, hx]
    rw [if_neg hterm, ih hmem]

/-! Lemmas for the fuel-based repetition combinators. -/

theorem manyLoop_fuel_irrel (p : Str → Option (Str × α)) :
    ∀ (n : Nat) (input : Str), input.length ≤ n →
      ∀ f1 f2, input.length < f1 → input.length < f2 →
        manyLoop p f1 input = manyLoop p f2 input := by
  intro n
  induction n with
  | zero =>
    intro input hle f1 f2 h1 h2
    obtain ⟨g1, rfl⟩ : ∃ g, f1 = g + 1 := ⟨f1 - 1, by omega⟩
    obtain ⟨g2, rfl⟩ : ∃ g, f2 = g + 1 := ⟨f2 - 1, by omega⟩
    cases hp : p input with
    | none => simp [manyLoop, hp]
    | some rv =>
      obtain ⟨r2, v⟩ := rv
      have hn : ¬ r2.length < input.length := by omega
      simp [manyLoop, hp, hn]
  | succ n ih =>
    intro input hle f1 f2 h1 h2
    obtain ⟨g1, rfl⟩ : ∃ g, f1 = g + 1 := ⟨f1 - 1, by omega⟩
    obtain ⟨g2, rfl⟩ : ∃ g, f2 = g + 1 := ⟨f2 - 1, by omega⟩
    cases hp : p input with
    | none => simp [manyLoop, hp]
    | some rv =>
      obtain ⟨r2, v⟩ := rv
      by_cases hlt : r2.length < input.length
      · simp only [manyLoop, hp, hlt, if_true]
        rw [ih r2 (by omega) g1 g2 (by omega) (by omega)]
      · simp [manyLoop, hp, hlt]

theorem sepLoop_fuel_irrel (sep : Str → Option (Str × β))
    (p : Str → Option (Str × α)) :
    ∀ (n : Nat) (input : Str), input.length ≤ n →
      ∀ f1 f2, input.length < f1 → input.length < f2 →
        sepLoop sep p f1 input = sepLoop sep p f2 input := by
  intro n
  induction n with
  | zero =>
    intro input hle f1 f2 h1 h2
    obtain ⟨g1, rfl⟩ : ∃ g, f1 = g + 1 := ⟨f1 - 1, by omega⟩
    obtain ⟨g2, rfl⟩ : ∃ g, f2 = g + 1 := ⟨f2 - 1, by omega⟩
    cases hs : sep input with
    | none => simp [sepLoop, hs]
    | some rs =>
      obtain ⟨r1, sv⟩ := rs
      cases hp : p r1 with
      | none => simp [sepLoop, hs, hp]
      | some rv =>
        obtain ⟨r2, v⟩ := rv
        have hn : ¬ r2.length < input.length := by omega
        simp [sepLoop, hs, hp, hn]
  | succ n ih =>
    intro input hle f1 f2 h1 h2
    obtain ⟨g1, rfl⟩ : ∃ g, f1 = g + 1 := ⟨f1 - 1, by omega⟩
    obtain ⟨g2, rfl⟩ : ∃ g, f2 = g + 1 := ⟨f2 - 1, by omega⟩
    cases hs : sep input with
    | none => simp [sepLoop, hs]
    | some rs =>
      obtain ⟨r1, sv⟩ := rs
      cases hp : p r1 with
      | none => simp [sepLoop, hs, hp]
      | some rv =>
        obtain ⟨r2, v⟩ := rv
        by_cases hlt : r2.length < input.length
        · simp only [sepLoop, hs, hp, hlt, if_true]
          rw [ih r2 (by omega) g1 g2 (by omega) (by omega)]
        · simp [sepLoop, hs, hp, hlt]

theorem dropWhile_eq_self_of_takeWhile_nil (p : Char → Bool) (ys : Str)
    (h : ys.takeWhile p = []) : ys.dropWhile p = ys := by
  cases ys with
  | nil => rfl
  | cons c rest =>
    by_cases hc : p c
    · simp [List.takeWhile_cons, hc] at h
    · simp [List.dropWhile_cons, hc]

theorem digitChar_isDigit {m : Nat} (h : m < 10) :
    (Nat.digitChar m).isDigit = true := by
  interval_cases m <;> decide

theorem digitVal_digitChar {m : Nat} (h : m < 10) :
    digitVal (Nat.digitChar m) = m := by
  interval_cases m <;> decide

theorem isDigit_ne (c : Char) (hc : c.isDigit = true) (ch : Char)
    (hch : ch.isDigit = false) : c ≠ ch := by
  intro h
  subst h
  rw [hc] at hch
  exact Bool.noConfusion hch

theorem isDigit_not_nomSpace (c : Char) (hc : c.isDigit = true) :
    isNomSpace c = false := by
  have h1 : c ≠ ' ' := isDigit_ne c hc ' ' (by decide)
  have h2 : c ≠ '\t' := isDigit_ne c hc '\t' (by decide)
  simp [isNomSpace, beq_iff_eq, h1, h2]

theorem digitsVal_append (xs : Str) (c : Char) :
    digitsVal (xs ++ [c]) = digitsVal xs * 10 + digitVal c := by
  simp [digitsVal, List.foldl_append]

theorem renderNatAux_spec : ∀ fuel n, n < fuel →
    renderNatAux fuel n ≠ [] ∧ (∀ c ∈ renderNatAux fuel n, c.isDigit = true) ∧
      digitsVal (renderNatAux fuel n) = n := by
  intro fuel
  induction fuel with
  | zero => intro n h; omega
  | succ fuel ih =>
    intro n h
    by_cases h10 : n < 10
    · refine ⟨by simp [renderNatAux, h10], ?_, ?_⟩
      · intro c hc
        simp only [renderNatAux, h10, if_true, List.mem_singleton] at hc
        subst hc
        exact digitChar_isDigit h10
      · simp only [renderNatAux, h10, if_true]
        show digitsVal ([] ++ [Nat.digitChar n]) = n
        rw [digitsVal_append]
        simp [digitsVal, digitVal_digitChar h10]
    · have hlt : n / 10 < n := Nat.div_lt_self (by omega) (by omega)
      have hdiv : n / 10 < fuel := by omega
      obtain ⟨hne, hdig, hval⟩ := ih (n / 10) hdiv
      simp only [renderNatAux, h10, if_false]
      refine ⟨by simp, ?_, ?_⟩
      · intro c hc
        rcases List.mem_append.mp hc with hc | hc
        · exact hdig c hc
        · rw [List.mem_singleton] at hc
          subst hc
          exact digitChar_isDigit (Nat.mod_lt n (by omega))
      · rw [digitsVal_append, hval, digitVal_digitChar (Nat.mod_lt n (by omega))]
        omega

theorem renderNat_spec (n : Nat) :
    renderNat n ≠ [] ∧ (∀ c ∈ renderNat n, c.isDigit = true) ∧
      digitsVal (renderNat n) = n :=
  renderNatAux_spec (n + 1) n (Nat.lt_succ_self n)

theorem digitsBounded_append (bound n : Nat) (rest : Str)
    (hb : n < bound) (hrest : rest.takeWhile Char.isDigit = []) :
    digitsBounded bound (renderNat n ++ rest) = some (rest, n) := by
  obtain ⟨hne, hdig, hval⟩ := renderNat_spec n
  unfold digitsBounded
  rw [takeWhile1P_exact Char.isDigit _ rest hne hdig hrest,
    dropWhile_eq_self_of_takeWhile_nil Char.isDigit rest hrest]
  simp [hval, hb]

/-! Claim C6: priority decomposition and composition. -/

set_option maxRecDepth 8192 in
/-- C6: for every integer N below 192, decomposing N yields the facility N
shifted right three bits and the severity of the low three bits, both
present, and composing that facility and severity yields N again. -/
theorem priority_decompose_compose (N : Nat) (h : N < 192) :
    compose_decomposed (decompose_pri N) = some N :=
  (by decide :
    ∀ n : Fin 192, compose_decomposed (decompose_pri n.val) = some n.val) ⟨N, h⟩

/-- Witness for C6 at the concrete priority 34. -/
theorem priority_decompose_compose_witness :
    compose_decomposed (decompose_pri 34) = some 34 :=
  priority_decompose_compose 34 (by decide)

/-! Claim C5: the structured element equality truncates at the shorter
param list. -/

/-- C5: the PartialEq of StructuredElement zips the two sorted param lists
and checks only the overlapping pairs, so param lists of different lengths
can compare equal, contrary to the claimed multiset semantics; the first
three equalities below exhibit different-length lists comparing equal, and
together with the fourth they show the relation is not even transitive,
contradicting the derived Eq of the source type. -/
theorem structured_element_eq_truncates :
    structuredElementEq ⟨strL "id", []⟩ ⟨strL "id", [(strL "a", strL "b")]⟩ = true ∧
    structuredElementEq ⟨strL "id", [(strL "a", strL "x")]⟩ ⟨strL "id", []⟩ = true ∧
    structuredElementEq ⟨strL "id", []⟩ ⟨strL "id", [(strL "b", strL "y")]⟩ = true ∧
    structuredElementEq ⟨strL "id", [(strL "a", strL "x")]⟩
      ⟨strL "id", [(strL "b", strL "y")]⟩ = false := by
  decide

/-! Claim C9: the lazy unescape and the escape round-trip. -/

theorem unescape_pair (c : Char) (rest : Str) :
    unescapeValue ('\\' :: c :: rest) =
      if c = 'n' then '\n' :: unescapeValue rest
      else if c = '"' ∨ c = ']' ∨ c = '\\' then c :: unescapeValue rest
      else '\\' :: c :: unescapeValue rest := by
  by_cases hn : c = 'n'
  · subst hn; simp [unescapeValue, unescapeLoop]
  · by_cases hq : c = '"'
    · subst hq; simp [unescapeValue, unescapeLoop]
    · by_cases hb : c = ']'
      · subst hb; simp [unescapeValue, unescapeLoop]
      · by_cases hs : c = '\\'
        · subst hs; simp [unescapeValue, unescapeLoop]
        · simp [unescapeValue, unescapeLoop, hn, hq, hb, hs]

theorem unescape_escape_id (v : Str) : unescapeValue (escapeValue v) = v := by
  induction v with
  | nil => rfl
  | cons c rest ih =>
    by_cases hq : c = '"'
    · subst hq
      show unescapeValue ('\\' :: '"' :: escapeValue rest) = '"' :: rest
      rw [unescape_pair]
      simp [ih]
    · by_cases hb : c = '\\'
      · subst hb
        show unescapeValue ('\\' :: '\\' :: escapeValue rest) = '\\' :: rest
        rw [unescape_pair]
        simp [ih]
      · have he : escapeValue (c :: rest) = c :: escapeValue rest := by
          simp [escapeValue, beq_iff_eq, hq, hb]
        rw [he]
        have h1 : (c == '\\') = false := by simp [beq_iff_eq, hb]
        simp only [unescapeValue, unescapeLoop, h1, Bool.not_false,
          Bool.and_true, Bool.false_and, Bool.and_false, Bool.false_eq_true,
          if_false]
        exact congrArg (c :: ·) ih

/-- C9: the lazy unescaping accessor decodes the backslash-quote,
backslash-backslash, backslash-bracket and backslash-n pairs to the literal
quote, backslash, closing bracket and newline, keeps any other
backslash-prefixed pair as literal text, and decoding an encoded owned
value is the identity, so re-encoding a decoded value reproduces the
original escaped text. -/
theorem unescape_decodes_and_roundtrips :
    (∀ rest : Str, unescapeValue ('\\' :: '"' :: rest) = '"' :: unescapeValue rest) ∧
    (∀ rest : Str, unescapeValue ('\\' :: '\\' :: rest) = '\\' :: unescapeValue rest) ∧
    (∀ rest : Str, unescapeValue ('\\' :: ']' :: rest) = ']' :: unescapeValue rest) ∧
    (∀ rest : Str, unescapeValue ('\\' :: 'n' :: rest) = '\n' :: unescapeValue rest) ∧
    (∀ (c : Char) (rest : Str),
      unescapeValue ('\\' :: c :: rest) =
        if c = 'n' then '\n' :: unescapeValue rest
        else if c = '"' ∨ c = ']' ∨ c = '\\' then c :: unescapeValue rest
        else '\\' :: c :: unescapeValue rest) ∧
    (∀ v : Str, unescapeValue (escapeValue v) = v) ∧
    (∀ v : Str, escapeValue (unescapeValue (escapeValue v)) = escapeValue v) := by
  refine ⟨?_, ?_, ?_, ?_, unescape_pair, unescape_escape_id, ?_⟩
  · intro rest; rw [unescape_pair]; simp
  · intro rest; rw [unescape_pair]; simp
  · intro rest; rw [unescape_pair]; simp
  · intro rest; rw [unescape_pair]; simp
  · intro v; rw [unescape_escape_id]

/-! Claim C10: the empty quoted param value. -/

/-- C10: parsing a param value that is the empty quoted string succeeds
through the dedicated first alternative of param_value and yields the empty
value, while the general escaped-value branch fails on that input because
the escaped scanner needs at least one character; a whole param with an
empty value parses accordingly. -/
theorem empty_param_value_ok :
    (∀ rest : Str, param_value ('"' :: '"' :: rest) = some (rest, [])) ∧
    (∀ rest : Str, quotedEscapedValue ('"' :: '"' :: rest) = none) ∧
    (∀ rest : Str, param ('a' :: '=' :: '"' :: '"' :: rest) =
      some (rest, (['a'], []))) := by
  refine ⟨?_, ?_, ?_⟩
  · intro rest
    rfl
  · intro rest
    rfl
  · intro rest
    rfl

/-! Claim C3: the single-token host-or-tag resolution. -/

theorem systag_bracketed (app pid : Str)
    (happ : ∀ c ∈ app, isRustWhitespace c = false ∧ c ≠ ':' ∧ c ≠ '[')
    (hpid_ne : pid ≠ []) (hpid : ']' ∉ pid) :
    systag (app ++ ('[' :: (pid ++ [']']))) = some ([], (app, pid)) := by
  have hpred : ∀ c ∈ app,
      (!(isRustWhitespace c) && !(c == ':') && !(c == '[')) = true := by
    intro c hc
    obtain ⟨h1, h2, h3⟩ := happ c hc
    simp [h1, beq_iff_eq, h2, h3]
  have hbr : (!(isRustWhitespace '[') && !('[' == ':') && !('[' == '[')) = false := by
    decide
  have hpidpred : ∀ c ∈ pid, (!(([']'] : Str).contains c)) = true := by
    intro c hc
    have hne : c ≠ ']' := fun h => hpid (h ▸ hc)
    simp [List.contains, beq_iff_eq, hne]
  have h1 : takeWhileP (fun c => !(isRustWhitespace c) && !(c == ':') && !(c == '['))
      (app ++ ('[' :: (pid ++ [']']))) = some ('[' :: (pid ++ [']']), app) := by
    unfold takeWhileP
    rw [takeWhile_sat_append _ app ('[' :: (pid ++ [']'])) hpred,
      dropWhile_sat_append _ app ('[' :: (pid ++ [']'])) hpred,
      takeWhile_nil_of_head_fail _ '[' (pid ++ [']']) hbr,
      dropWhile_of_head_fail _ '[' (pid ++ [']']) hbr,
      List.append_nil]
  have h2 : tagC ['['] ('[' :: (pid ++ [']'])) = some (pid ++ [']'], ['[']) := by
    have := tagC_append ['['] (pid ++ [']'])
    simpa using this
  have h3 : isNotC [']'] (pid ++ [']']) = some ([']'], pid) := by
    unfold isNotC
    rw [takeWhile1P_exact _ pid [']'] hpid_ne hpidpred (by decide)]
    rfl
  have h4 : tagC [']'] ([']'] : Str) = some ([], [']']) := by decide
  simp only [systag, h1, Option.some_bind, h2, h3, h4]
  rfl

theorem systag_no_bracket (tok : Str) (h : '[' ∉ tok) : systag tok = none := by
  unfold systag takeWhileP
  cases hdw : tok.dropWhile
      (fun c => !(isRustWhitespace c) && !(c == ':') && !(c == '[')) with
  | nil => rfl
  | cons c rest =>
    have hmem : c ∈ tok := by
      have hsuff := List.dropWhile_suffix
        (l := tok) (p := fun c => !(isRustWhitespace c) && !(c == ':') && !(c == '['))
      rw [hdw] at hsuff
      exact hsuff.subset (List.mem_cons_self c rest)
    have hc : c ≠ '[' := fun he => h (he ▸ hmem)
    show (tagC ['['] (c :: rest)).bind _ = none
    unfold tagC
    have hne : List.take (['['] : Str).length (c :: rest) ≠ ['['] := by
      simp [List.take, hc]
    rw [if_neg hne]
    rfl

/-- C3 counterexample: for the single token mymachine, which is a bare app
token, the claimed tag grammar of app-bracket-pid or bare app would yield
an appname with no hostname, but resolve_host_and_tag yields the hostname
mymachine with appname and procid absent. -/
theorem single_token_bare_app_is_hostname :
    resolve_host_and_tag (some (some (strL "mymachine"))) none =
      (some (strL "mymachine"), none, none) ∧
    spec_single_token_rule (strL "mymachine") =
      (none, some (strL "mymachine"), none) ∧
    spec_single_token_rule (strL "mymachine") ≠
      resolve_host_and_tag (some (some (strL "mymachine"))) none := by
  refine ⟨rfl, rfl, ?_⟩
  decide

/-- C3 amended: when exactly one token follows the timestamp, the token is
matched against the systag grammar, which requires a bracketed pid (a bare
name does not match): a name-bracket-pid token resolves to that appname and
procid with the hostname absent, while a token containing no opening
bracket becomes the hostname with appname and procid absent. -/
theorem resolve_single_token (app pid : Str)
    (happ : ∀ c ∈ app, isRustWhitespace c = false ∧ c ≠ ':' ∧ c ≠ '[')
    (hpid_ne : pid ≠ []) (hpid : ']' ∉ pid) :
    resolve_host_and_tag (some (some (app ++ ('[' :: (pid ++ [']']))))) none =
      (none, some app, some pid) ∧
    (∀ tok : Str, '[' ∉ tok →
      resolve_host_and_tag (some (some tok)) none = (some tok, none, none)) := by
  constructor
  · simp only [resolve_host_and_tag]
    rw [systag_bracketed app pid happ hpid_ne hpid]
  · intro tok htok
    simp only [resolve_host_and_tag]
    rw [systag_no_bracket tok htok]

/-- Witness for C3 at the token app-bracket-323 and the token mymachine. -/
theorem resolve_single_token_witness :
    resolve_host_and_tag (some (some (strL "app[323]"))) none =
      (none, some (strL "app"), some (strL "323")) ∧
    resolve_host_and_tag (some (some (strL "mymachine"))) none =
      (some (strL "mymachine"), none, none) := by
  have h := resolve_single_token (strL "app") (strL "323")
    (by decide) (by decide) (by decide)
  refine ⟨?_, h.2 (strL "mymachine") (by decide)⟩
  have he : strL "app[323]" = strL "app" ++ ('[' :: (strL "323" ++ [']'])) := by
    decide
  rw [he]
  exact h.1

/-! Claims C1 and C7: the top-level fallback and the absence of trimming. -/

/-- C1: whenever both grammar attempts fail, parse_message_with_year
returns the fallback message: a header with facility, severity, timestamp,
hostname, appname, procid and msgid all absent, protocol RFC3164, no
structured data, and the entire original input as the message.  The
embedding is a total function, so no panic or exception is possible. -/
theorem parse_fallback_message (get_year : IncompleteDate → Int)
    (localOffset : Int) (input : Str)
    (h : lib_parse get_year localOffset input = none) :
    parse_message_with_year get_year localOffset input =
      ⟨Header.new, .RFC3164, [], input⟩ ∧
    Header.new = ⟨none, none, none, none, none, none, none, none⟩ := by
  constructor
  · unfold parse_message_with_year
    rw [h]
  · rfl

/-- Witness for C1 on an input that fails both grammars. -/
theorem parse_fallback_message_witness :
    parse_message_with_year (fun _ => 2020) 0
        (strL "complete and utter gobbledegook") =
      ⟨Header.new, .RFC3164, [], strL "complete and utter gobbledegook"⟩ :=
  (parse_fallback_message (fun _ => 2020) 0
    (strL "complete and utter gobbledegook") (by rfl)).1

/-- C7 counterexample: the top-level parse does not trim its input; on an
input padded with spaces that fails both grammars, the resulting message is
the untrimmed original input and differs from every trimming of it. -/
theorem no_trim_counterexample :
    (parse_message_with_year (fun _ => 2020) 0 (strL "  junk  ")).msg =
      strL "  junk  " ∧
    (parse_message_with_year (fun _ => 2020) 0 (strL "  junk  ")).msg ≠
      trimWs (strL "  junk  ") := by
  constructor
  · rfl
  · intro h
    have : strL "  junk  " = trimWs (strL "  junk  ") := by
      rw [← h]
      rfl
    revert this
    decide

/-- C7 amended: the top-level parse applies no trimming anywhere; whenever
both grammars fail, the message field of the returned record is the entire
original input, untrimmed. -/
theorem parse_no_trim (get_year : IncompleteDate → Int) (localOffset : Int)
    (input : Str) (h : lib_parse get_year localOffset input = none) :
    (parse_message_with_year get_year localOffset input).msg = input := by
  unfold parse_message_with_year
  rw [h]

/-- Witness for C7 on the space-padded input. -/
theorem parse_no_trim_witness :
    (parse_message_with_year (fun _ => 2020) 0 (strL "  junk  ")).msg =
      strL "  junk  " :=
  parse_no_trim (fun _ => 2020) 0 (strL "  junk  ") (by rfl)

/-! Claim C4: permissive and strict structured data. -/

theorem manyLoop_succ (p : Str → Option (Str × α)) (fuel : Nat) (input : Str) :
    manyLoop p (fuel + 1) input =
      match p input with
      | none => some (input, [])
      | some (rest, v) =>
        if rest.length < input.length then
          (manyLoop p fuel rest).map fun rv => (rv.1, v :: rv.2)
        else none := rfl

theorem permissive_drop (t rest : Str)
    (hfail : structured_datum_strict ('[' :: (t ++ (']' :: rest))) = none)
    (hnb : ']' ∉ t) :
    structured_datum_permissive ('[' :: (t ++ (']' :: rest))) =
      some (rest, none) := by
  unfold structured_datum_permissive
  rw [hfail]
  have h1 : tagC ['['] ('[' :: (t ++ (']' :: rest))) =
      some (t ++ (']' :: rest), ['[']) := by
    have := tagC_append ['['] (t ++ (']' :: rest))
    simpa using this
  have h2 : takeUntilC [']'] (t ++ (']' :: rest)) = some (']' :: rest, t) :=
    takeUntilC_single ']' t rest hnb
  have h3 : tagC [']'] (']' :: rest) = some (rest, [']']) := by
    have := tagC_append [']'] rest
    simpa using this
  simp only [h1, Option.some_bind, h2, h3]
  rfl

theorem tagC_dash_of_bracket (x : Str) (hhd : x.take 1 = ['[']) :
    tagC ['-'] x = none := by
  unfold tagC
  rw [if_neg]
  intro h
  rw [show (['-'] : Str).length = 1 from rfl, hhd] at h
  exact absurd h (by decide)

theorem permissive_keeps_tail (t tail r : Str) (elems : List StructuredElement)
    (hfail : structured_datum_strict ('[' :: (t ++ (']' :: tail))) = none)
    (hnb : ']' ∉ t)
    (htail : structured_data tail = some (r, elems))
    (hhd : tail.take 1 = ['[']) :
    structured_data ('[' :: (t ++ (']' :: tail))) = some (r, elems) := by
  have hlen : tail.length < ('[' :: (t ++ (']' :: tail))).length := by
    simp [List.length_cons, List.length_append]
    omega
  have htail2 : (many1P (structured_datum true) tail).map
      (fun rr => (rr.1, rr.2.filterMap id)) = some (r, elems) := by
    unfold structured_data structured_data_optional at htail
    rw [tagC_dash_of_bracket tail hhd] at htail
    exact htail
  obtain ⟨⟨r2, items⟩, hmany, hre⟩ := Option.map_eq_some'.mp htail2
  have hr2 : r2 = r := congrArg Prod.fst hre
  have hfm : items.filterMap id = elems := congrArg Prod.snd hre
  subst hr2
  have hloop : manyLoop (structured_datum true) (tail.length + 1) tail =
      some (r2, items) := by
    unfold many1P at hmany
    cases hl : manyLoop (structured_datum true) (tail.length + 1) tail with
    | none => rw [hl] at hmany; simp at hmany
    | some rv =>
      obtain ⟨rr, vs⟩ := rv
      rw [hl] at hmany
      cases vs with
      | nil => simp at hmany
      | cons v vtl =>
        simpa using hmany
  have hp : structured_datum true ('[' :: (t ++ (']' :: tail))) =
      some (tail, none) := by
    show structured_datum_permissive _ = _
    exact permissive_drop t tail hfail hnb
  have e1 : manyLoop (structured_datum true)
      (('[' :: (t ++ (']' :: tail))).length + 1) ('[' :: (t ++ (']' :: tail))) =
      (manyLoop (structured_datum true) (('[' :: (t ++ (']' :: tail))).length)
        tail).map (fun rv => (rv.1, none :: rv.2)) := by
    rw [manyLoop_succ, hp]
    simp only []
    rw [if_pos hlen]
  have e2 : manyLoop (structured_datum true)
      (('[' :: (t ++ (']' :: tail))).length) tail = some (r2, items) := by
    rw [manyLoop_fuel_irrel (structured_datum true) tail.length tail le_rfl
      (('[' :: (t ++ (']' :: tail))).length) (tail.length + 1) hlen
      (Nat.lt_succ_self _)]
    exact hloop
  unfold structured_data structured_data_optional
  rw [tagC_dash_of_bracket ('[' :: (t ++ (']' :: tail))) (by simp)]
  unfold many1P
  rw [e1, e2]
  simp [hfm]

theorem strict_sd_aborts (t tail : Str)
    (hfail : structured_datum_strict ('[' :: (t ++ (']' :: tail))) = none) :
    structured_data_optional false ('[' :: (t ++ (']' :: tail))) = none := by
  have hp : structured_datum false ('[' :: (t ++ (']' :: tail))) = none := hfail
  unfold structured_data_optional
  rw [tagC_dash_of_bracket ('[' :: (t ++ (']' :: tail))) (by simp)]
  unfold many1P
  rw [manyLoop_succ, hp]
  rfl

/-- C4 amended: the permissive machinery does behave as the claim says: a
bracketed span on which the strict grammar fails is consumed up to its
closing bracket and yields no element, and in permissive mode
(structured_data, the mode of the old top-level 5424 branch) it neither
aborts the parse nor prevents a following well-formed element from being
collected; however rfc3164 parse invokes structured_data_optional with
allow_failure false, the strict mode, where the same malformed first
element makes the whole optional structured-data section fail, so in the
RFC3164 grammar nothing is collected and the spans stay in the message. -/
theorem permissive_mode_semantics :
    (∀ t rest : Str,
      structured_datum_strict ('[' :: (t ++ (']' :: rest))) = none →
      ']' ∉ t →
      structured_datum_permissive ('[' :: (t ++ (']' :: rest))) =
        some (rest, none)) ∧
    (∀ (t tail r : Str) (elems : List StructuredElement),
      structured_datum_strict ('[' :: (t ++ (']' :: tail))) = none →
      ']' ∉ t →
      structured_data tail = some (r, elems) →
      tail.take 1 = ['['] →
      structured_data ('[' :: (t ++ (']' :: tail))) = some (r, elems)) ∧
    (∀ t tail : Str,
      structured_datum_strict ('[' :: (t ++ (']' :: tail))) = none →
      structured_data_optional false ('[' :: (t ++ (']' :: tail))) = none) :=
  ⟨permissive_drop, permissive_keeps_tail, strict_sd_aborts⟩

/-- Witness for C4: the malformed bad-equals element is dropped by the
permissive parser, the following id element is still collected, and the
strict mode used by the rfc3164 grammar fails on the same input. -/
theorem permissive_mode_semantics_witness :
    structured_datum_permissive ('[' :: (strL "bad=" ++ (']' :: strL "x"))) =
      some (strL "x", none) ∧
    structured_data ('[' :: (strL "bad=" ++ (']' :: strL "[id aa=\"bb\"]"))) =
      some ([], [⟨strL "id", [(strL "aa", strL "bb")]⟩]) ∧
    structured_data_optional false
      ('[' :: (strL "bad=" ++ (']' :: strL "[id aa=\"bb\"]"))) = none := by
  refine ⟨permissive_mode_semantics.1 (strL "bad=") (strL "x") (by rfl) (by decide),
    permissive_mode_semantics.2.1 (strL "bad=") (strL "[id aa=\"bb\"]") []
      [⟨strL "id", [(strL "aa", strL "bb")]⟩] (by rfl) (by decide) (by rfl) (by rfl),
    permissive_mode_semantics.2.2 (strL "bad=") (strL "[id aa=\"bb\"]") (by rfl)⟩

/-- C4 counterexample: through the full rfc3164 grammar, a malformed
element followed by a well-formed one yields no structured data at all and
both spans stay in the message, where the claim promises the malformed span
is dropped and the well-formed element collected. -/
theorem rfc3164_strict_sd_counterexample :
    rfc3164_parse (fun _ => 2019) (some 0) 0
        (strL "<34>Oct 11 22:14:15 host app: [bad=][id aa=\"bb\"] hello") =
      some ([],
        { protocol := .RFC3164, facility := some .LOG_AUTH,
          severity := some .SEV_CRIT,
          timestamp := some ⟨2019, 10, 11, 22, 14, 15, 0⟩,
          hostname := some (strL "host"), appname := some (strL "app"),
          procid := none, msgid := none, structured_data := [],
          msg := strL "[bad=][id aa=\"bb\"] hello" }) ∧
    ([] : List StructuredElement) ≠
      [⟨strL "id", [(strL "aa", strL "bb")]⟩] := by
  exact ⟨by rfl, by decide⟩

/-! Claim C8: an invalid resolved year fails as an ordinary parse failure. -/

/-- C8: when the no-year 3164 timestamp parses but the year returned by the
resolution function makes the civil date invalid, make_timestamp yields
nothing and the no-year branch fails; when the with-year and RFC3339
alternatives fail as well the whole timestamp parser fails, and any such
timestamp failure makes the rfc3164 grammar fail in turn, reaching the
ordinary fallback machinery of the callers; the embedding is total, so no
panic is possible. -/
theorem invalid_year_propagates (get_year : IncompleteDate → Int)
    (off loc : Int) (input rem : Str) (idate : IncompleteDate)
    (h1 : timestamp_3164_no_year input = some (rem, idate))
    (h2 : make_timestamp idate get_year (some off) loc = none)
    (h3 : timestamp_3164_with_year input = none)
    (h4 : timestamp_3339 input = none) :
    timestamp_3164 get_year (some off) loc input = none ∧
    (∀ s : Str,
      timestamp_3164 get_year (some off) loc
          ((pri s).1.dropWhile isNomSpace) = none →
      rfc3164_parse get_year (some off) loc s = none) := by
  constructor
  · unfold timestamp_3164
    rw [h1]
    simp only [Option.some_bind, h2, h3, Option.map_none]
    exact h4
  · intro s ht
    rcases hpri : pri s with ⟨r1, p⟩
    rw [hpri] at ht
    simp only at ht
    unfold rfc3164_parse
    rw [hpri]
    simp only [space0, takeWhileP, Option.some_bind]
    rw [ht]
    rfl

/-- Witness for C8: February 29 resolved to the non-leap year 2019 fails
the timestamp and the whole rfc3164 parse. -/
theorem invalid_year_propagates_witness :
    timestamp_3164 (fun _ => 2019) (some 0) 0
        (strL "Feb 29 12:00:00 host app: hi") = none ∧
    rfc3164_parse (fun _ => 2019) (some 0) 0
        (strL "<34>Feb 29 12:00:00 host app: hi") = none := by
  have h := invalid_year_propagates (fun _ => 2019) 0 0
    (strL "Feb 29 12:00:00 host app: hi") (strL " host app: hi")
    (2, 29, 12, 0, 0) (by rfl) (by rfl) (by rfl) (by rfl)
  exact ⟨h.1, h.2 (strL "<34>Feb 29 12:00:00 host app: hi") h.1⟩

/-! Claim C2: the display round-trip. -/

/-- C2 counterexample: the Display writes the procid and msgid slots for
RFC3164 messages too, but the RFC3164 grammar has no such fields, so the
rendering of a well-formed RFC3164 message does not parse back to an equal
message.  With a procid, the procid is lost and its token prepended to the
message body; even without a procid, the dash written for the absent msgid
ends up inside the message body.  Equality fails under the Message
PartialEq and also modulo the documented dash-absent equivalence. -/
theorem display_roundtrip_counterexample :
    parse_line (fun _ => 2019) (some 0) 0
        (displayMessage ⟨2019, 10, 11, 22, 14, 15, 0⟩
          ⟨.RFC3164, some .LOG_AUTH, some .SEV_CRIT,
            some ⟨2019, 10, 11, 22, 14, 15, 0⟩, some (strL "host"),
            some (strL "app"), some (.PID 323), none, [], strL "hello"⟩) =
      some ⟨.RFC3164, some .LOG_AUTH, some .SEV_CRIT,
        some ⟨2019, 10, 11, 22, 14, 15, 0⟩, some (strL "host"),
        some (strL "app"), none, none, [], strL "323 -  hello"⟩ ∧
    messageEq
      ⟨.RFC3164, some .LOG_AUTH, some .SEV_CRIT,
        some ⟨2019, 10, 11, 22, 14, 15, 0⟩, some (strL "host"),
        some (strL "app"), some (.PID 323), none, [], strL "hello"⟩
      ⟨.RFC3164, some .LOG_AUTH, some .SEV_CRIT,
        some ⟨2019, 10, 11, 22, 14, 15, 0⟩, some (strL "host"),
        some (strL "app"), none, none, [], strL "323 -  hello"⟩ = false ∧
    messageEqModDash
      ⟨.RFC3164, some .LOG_AUTH, some .SEV_CRIT,
        some ⟨2019, 10, 11, 22, 14, 15, 0⟩, some (strL "host"),
        some (strL "app"), some (.PID 323), none, [], strL "hello"⟩
      ⟨.RFC3164, some .LOG_AUTH, some .SEV_CRIT,
        some ⟨2019, 10, 11, 22, 14, 15, 0⟩, some (strL "host"),
        some (strL "app"), none, none, [], strL "323 -  hello"⟩ = false ∧
    parse_line (fun _ => 2019) (some 0) 0
        (displayMessage ⟨2019, 10, 11, 22, 14, 15, 0⟩
          ⟨.RFC3164, some .LOG_AUTH, some .SEV_CRIT,
            some ⟨2019, 10, 11, 22, 14, 15, 0⟩, some (strL "host"),
            some (strL "app"), none, none, [], strL "hello"⟩) =
      some ⟨.RFC3164, some .LOG_AUTH, some .SEV_CRIT,
        some ⟨2019, 10, 11, 22, 14, 15, 0⟩, some (strL "host"),
        some (strL "app"), none, none, [], strL "-  hello"⟩ ∧
    messageEqModDash
      ⟨.RFC3164, some .LOG_AUTH, some .SEV_CRIT,
        some ⟨2019, 10, 11, 22, 14, 15, 0⟩, some (strL "host"),
        some (strL "app"), none, none, [], strL "hello"⟩
      ⟨.RFC3164, some .LOG_AUTH, some .SEV_CRIT,
        some ⟨2019, 10, 11, 22, 14, 15, 0⟩, some (strL "host"),
        some (strL "app"), none, none, [], strL "-  hello"⟩ = false := by
  exact ⟨by rfl, by decide, by decide, by rfl, by decide⟩

end SyslogLoose
